import Mathlib

/-!
Shallow embedding of `fastapi_cache/tag_provider.py` (class `TagProvider`)
together with the backend, coder and configuration capabilities it calls
(`FastAPICache.get_backend`, `get_coder`, `get_prefix`, `get_expire`), which
are outside the given sources and are modelled from the spec (sections 4.2
and 4.3): the backend is a key-value store with expiring entries and the
coder round-trips exactly, so stored values are modelled in decoded form.
Asynchronous fan-out (`asyncio.gather`) is modelled under sequential
execution: the tasks of one batch are applied in list order, a failed task
leaves the state untouched, and any failed task makes the whole call raise.
-/

/-- A backend value in decoded form: either a tag-index record (the decoded
list of cache keys kept under a tag) or an opaque encoded cache entry.
Modelled from the spec (section 4.3): the coder round-trips exactly, so a
record is kept as its list of keys rather than as bytes. -/
inductive Payload where
  | record (keys : List String)
  | blob (data : String)
deriving DecidableEq

/-- Modelled from the spec (section 4.2): backend state maps a key to its
stored payload and the TTL value it was last set with. `get`, `set` and
`clear` (delete, idempotent) below are the operations `TagProvider` uses. -/
abbrev Backend := String → Option (Payload × Nat)

def Backend.get (st : Backend) (key : String) : Option (Payload × Nat) := st key

def Backend.set (st : Backend) (key : String) (value : Payload) (expire : Nat) : Backend :=
  fun k => if k = key then some (value, expire) else st k

def Backend.clear (st : Backend) (key : String) : Backend :=
  fun k => if k = key then none else st k

/-- Modelled from the spec: global configuration read by `TagProvider`
through `FastAPICache.get_prefix` and `FastAPICache.get_expire`. -/
structure Ctx where
  pfx : String
  defaultExpire : Nat

/-- A Python value as it occurs as an item handled by `TagProvider`: either a
dict, carrying the string rendering of its `id` field when that field is
present (the default object id provider returns exactly that rendering), or
any non-dict value (for example a key yielded by iterating a dict passed as
`data`). -/
inductive Item where
  | dict (idField : Option String)
  | other
deriving DecidableEq

abbrev MethodArgs := List String

abbrev MethodKwargs := List (String × String)

abbrev ItemsProvider := List Item → Option MethodArgs → Option MethodKwargs → List Item

structure TagProvider where
  object_type : String
  object_id_provider : Option (Item → Option String)

/-- `default_object_id_provider(item)` returns the string rendering of the
item `id` field; it raises (`none`) when the item is not a dict or has no
`id` field. -/
def TagProvider.default_object_id_provider : Item → Option String
  | .dict (some s) => some s
  | .dict none => none
  | .other => none

/-- `self.object_id_provider` after `__init__`: the provider given to the
constructor, or the default one. -/
def TagProvider.objectIdProvider (tp : TagProvider) : Item → Option String :=
  match tp.object_id_provider with
  | some f => f
  | none => TagProvider.default_object_id_provider

/-- `default_items_provider` returns `data` unchanged. -/
def TagProvider.default_items_provider : ItemsProvider :=
  fun data _ _ => data

/-- `get_tag`: the source computes `object_id or self.object_id_provider(item)`,
so a falsy `object_id` (absent or the empty string) falls back to the
provider, which raises (`none`) when `item` is absent; the tag string is the
global prefix, the literal `invalidation`, the object type and the object id,
joined by colons. -/
def TagProvider.get_tag (tp : TagProvider) (ctx : Ctx)
    (item : Option Item) (object_id : Option String) : Option String :=
  let fromItem : Option String := item.bind fun it => tp.objectIdProvider it
  let oid : Option String :=
    match object_id with
    | some s => if s = "" then fromItem else some s
    | none => fromItem
  match oid with
  | none => none
  | some s => some (ctx.pfx ++ ":invalidation:" ++ tp.object_type ++ ":" ++ s)

/-- Which backend set/clear calls fail (`BackendUnavailable`, spec section
4.2), given by key; `noFail` is the failure-free backend. -/
def noFail : String → Bool := fun _ => false

/-- `_append_value`: read the value under `key` (an absent or falsy value
gives the fresh record `[parent_key]`), append `parent_key`, write back with
`expire`. The task raises (`none`) when the stored value does not decode to
a list (a non-record payload, which never occurs under a tag key) or when
the backend write on `key` fails. -/
def TagProvider._append_value (failing : String → Bool) (st : Backend)
    (key parent_key : String) (expire : Nat) : Option Backend :=
  match st.get key with
  | some (.blob _, _) => none
  | some (.record ks, _) =>
      if failing key then none
      else some (st.set key (.record (ks ++ [parent_key])) expire)
  | none =>
      if failing key then none
      else some (st.set key (.record [parent_key]) expire)

/-- The source computes `expire or FastAPICache.get_expire()`: an absent or
zero `expire` falls back to the configured default. -/
def effectiveExpire (expire : Option Nat) (ctx : Ctx) : Nat :=
  match expire with
  | some e => if e = 0 then ctx.defaultExpire else e
  | none => ctx.defaultExpire

/-- The eager part of the task-list comprehension in `provide`: compute the
tag of every item in order, raising (`none`) at the first item whose
`get_tag` raises — in that case no append coroutine has been awaited and no
backend write happens at all. -/
def collectTags (tp : TagProvider) (ctx : Ctx) : List Item → Option (List String)
  | [] => some []
  | it :: rest =>
    match tp.get_tag ctx (some it) none with
    | none => none
    | some t =>
      match collectTags tp ctx rest with
      | none => none
      | some ts => some (t :: ts)

/-- One task of the gathered `_append_value` batch: a failed task leaves the
state unchanged and marks the batch as failed. -/
def appendStep (failing : String → Bool) (parent_key : String) (expire : Nat)
    (acc : Backend × Bool) (tag : String) : Backend × Bool :=
  match TagProvider._append_value failing acc.1 tag parent_key expire with
  | some st => (st, acc.2)
  | none => (acc.1, true)

/-- `provide`: choose the items provider, build the task list (`get_tag` is
evaluated eagerly for every item while the list comprehension builds the
coroutines, so a failing `get_tag` raises before any append has run), then
gather the appends: every non-failing append is applied and the call raises
(`Except.error`, carrying the resulting state) when any task failed. -/
def TagProvider.provide (tp : TagProvider) (ctx : Ctx) (failing : String → Bool)
    (st : Backend) (data : List Item) (parent_key : String) (expire : Option Nat)
    (items_provider : Option ItemsProvider) (method_args : Option MethodArgs)
    (method_kwargs : Option MethodKwargs) : Except Backend Backend :=
  let provider := items_provider.getD TagProvider.default_items_provider
  let items := provider data method_args method_kwargs
  match collectTags tp ctx items with
  | none => .error st
  | some tags =>
      let r := tags.foldl (appendStep failing parent_key (effectiveExpire expire ctx)) (st, false)
      if r.2 then .error r.1 else .ok r.1

/-- One task of the gathered `backend.clear` batch. -/
def clearStep (failing : String → Bool) (acc : Backend × Bool) (key : String) : Backend × Bool :=
  if failing key then (acc.1, true) else (acc.1.clear key, acc.2)

/-- `invalidate`: compute the tag (raising when `object_id` is falsy), read
its record (`if not value: return` makes an absent record a no-op), then
clear every listed key and the tag itself in one gathered batch; a stored
value that does not decode to a list of keys raises. -/
def TagProvider.invalidate (tp : TagProvider) (ctx : Ctx) (failing : String → Bool)
    (st : Backend) (object_id : String) : Except Backend Backend :=
  match tp.get_tag ctx none (some object_id) with
  | none => .error st
  | some tag =>
      match st.get tag with
      | none => .ok st
      | some (.blob _, _) => .error st
      | some (.record ks, _) =>
          let r := (ks ++ [tag]).foldl (clearStep failing) (st, false)
          if r.2 then .error r.1 else .ok r.1

/-- The two mutating operations of the tag index, for stating invariants. -/
inductive Op where
  | provideOp (data : List Item) (parent_key : String) (expire : Option Nat)
      (items_provider : Option ItemsProvider) (method_args : Option MethodArgs)
      (method_kwargs : Option MethodKwargs)
  | invalidateOp (object_id : String)

def TagProvider.step (tp : TagProvider) (ctx : Ctx) (failing : String → Bool)
    (st : Backend) : Op → Except Backend Backend
  | .provideOp data pk expire ip margs mkw =>
      tp.provide ctx failing st data pk expire ip margs mkw
  | .invalidateOp oid => tp.invalidate ctx failing st oid

/-- The backend state after a call, whether it returned or raised. -/
def stateOf : Except Backend Backend → Backend
  | .ok st => st
  | .error st => st

def isError : Except Backend Backend → Bool
  | .ok _ => false
  | .error _ => true

/-- The decoded record under a tag, the empty list when the tag is absent. -/
def getRecord (st : Backend) (tag : String) : List String :=
  match st.get tag with
  | some (.record ks, _) => ks
  | _ => []

/-- The key holds a record or nothing. This is true of every tag key: the
reserved tag layout keeps opaque cache entries out of tag keys. -/
def recOrAbsent (st : Backend) (tag : String) : Bool :=
  match st.get tag with
  | some (.blob _, _) => false
  | _ => true

/-- Look a key up in the state of a call that returned normally; `none` when
the call raised. Used to evaluate concrete runs decidably. -/
def okGet (r : Except Backend Backend) (key : String) : Option (Option (Payload × Nat)) :=
  match r with
  | .ok st => some (st.get key)
  | .error _ => none

/-- A dict item carrying an `id` field, as the default providers require. -/
def isGoodItem : Item → Bool
  | .dict (some _) => true
  | _ => false

/-- Concrete fixtures used by witnesses and counterexamples. -/
def tpFile : TagProvider := ⟨"file", none⟩

def ctxP : Ctx := ⟨"p", 60⟩

def emptyB : Backend := fun _ => none

/-! ### Helper lemmas about the backend operations and the gathered batches -/

lemma Backend.get_set (st : Backend) (key k : String) (v : Payload) (e : Nat) :
    (st.set key v e).get k = if k = key then some (v, e) else st.get k := rfl

lemma Backend.get_clear (st : Backend) (key k : String) :
    (st.clear key).get k = if k = key then none else st.get k := rfl

lemma clearFold_get (failing : String → Bool) (l : List String) :
    ∀ (st : Backend) (b : Bool) (k : String),
      ((l.foldl (clearStep failing) (st, b)).1).get k =
        if k ∈ l ∧ failing k = false then none else st.get k := by
  induction l with
  | nil => intro st b k; simp
  | cons a l ih =>
    intro st b k
    simp only [List.foldl_cons, clearStep]
    by_cases hfa : failing a
    · rw [if_pos hfa, ih st true k]
      by_cases hka : k = a <;> by_cases hkl : k ∈ l <;> simp_all [List.mem_cons]
    · rw [if_neg hfa, ih (st.clear a) b k, Backend.get_clear]
      by_cases hka : k = a <;> by_cases hkl : k ∈ l <;> simp_all [List.mem_cons]

lemma clearFold_flag (failing : String → Bool) (l : List String) :
    ∀ (st : Backend) (b : Bool),
      (l.foldl (clearStep failing) (st, b)).2 = (b || l.any failing) := by
  induction l with
  | nil => intro st b; simp
  | cons a l ih =>
    intro st b
    simp only [List.foldl_cons, clearStep]
    by_cases hfa : failing a
    · simp [hfa, ih, Bool.or_assoc, Bool.or_comm]
    · simp [hfa, ih]

lemma append_value_get_ne (failing : String → Bool) (st : Backend)
    (key parent_key : String) (expire : Nat) (k : String) (hk : k ≠ key) :
    ∀ st', TagProvider._append_value failing st key parent_key expire = some st' →
      st'.get k = st.get k := by
  intro st' h
  rcases hv : st.get key with _ | ⟨p, e⟩
  · simp only [TagProvider._append_value, hv] at h
    by_cases hf : failing key
    · simp [hf] at h
    · rw [if_neg hf, Option.some_inj] at h
      subst h
      simp [Backend.get_set, hk]
  · rcases p with ks | d
    · simp only [TagProvider._append_value, hv] at h
      by_cases hf : failing key
      · simp [hf] at h
      · rw [if_neg hf, Option.some_inj] at h
        subst h
        simp [Backend.get_set, hk]
    · simp [TagProvider._append_value, hv] at h

lemma appendFold_get_notMem (failing : String → Bool) (pk : String) (e : Nat)
    (l : List String) :
    ∀ (st : Backend) (b : Bool) (k : String), k ∉ l →
      ((l.foldl (appendStep failing pk e) (st, b)).1).get k = st.get k := by
  induction l with
  | nil => intro st b k _; simp
  | cons a l ih =>
    intro st b k hk
    have hka : k ≠ a := fun h => hk (h ▸ List.mem_cons_self a l)
    have hkl : k ∉ l := fun h => hk (List.mem_cons_of_mem a h)
    simp only [List.foldl_cons, appendStep]
    rcases hav : TagProvider._append_value failing st a pk e with _ | st'
    · exact ih st true k hkl
    · rw [ih st' b k hkl]
      exact append_value_get_ne failing st a pk e k hka st' hav

lemma append_value_ok (failing : String → Bool) (st : Backend) (key pk : String) (e : Nat)
    (hrec : recOrAbsent st key = true) (hf : failing key = false) :
    TagProvider._append_value failing st key pk e =
      some (st.set key (.record (getRecord st key ++ [pk])) e) := by
  rcases hv : st.get key with _ | ⟨p, e'⟩
  · simp [TagProvider._append_value, hv, getRecord, hf]
  · rcases p with ks | d
    · simp [TagProvider._append_value, hv, getRecord, hf]
    · simp [recOrAbsent, hv] at hrec

lemma append_value_fail (failing : String → Bool) (st : Backend) (key pk : String) (e : Nat)
    (hf : failing key = true) :
    TagProvider._append_value failing st key pk e = none := by
  rcases hv : st.get key with _ | ⟨p, e'⟩
  · simp [TagProvider._append_value, hv, hf]
  · rcases p with ks | d <;> simp [TagProvider._append_value, hv, hf]

lemma append_value_some_getRecord (failing : String → Bool) (st : Backend)
    (key pk : String) (e : Nat) (st' : Backend)
    (h : TagProvider._append_value failing st key pk e = some st') :
    getRecord st' key = getRecord st key ++ [pk] := by
  rcases hv : st.get key with _ | ⟨p, e'⟩
  · simp only [TagProvider._append_value, hv] at h
    by_cases hf : failing key
    · simp [hf] at h
    · rw [if_neg hf, Option.some_inj] at h
      subst h
      simp [getRecord, Backend.get_set, hv]
  · rcases p with ks | d
    · simp only [TagProvider._append_value, hv] at h
      by_cases hf : failing key
      · simp [hf] at h
      · rw [if_neg hf, Option.some_inj] at h
        subst h
        simp [getRecord, Backend.get_set, hv]
    · simp [TagProvider._append_value, hv] at h

lemma recOrAbsent_set_record (st : Backend) (key t : String) (ks : List String) (e : Nat)
    (h : recOrAbsent st t = true) :
    recOrAbsent (st.set key (.record ks) e) t = true := by
  unfold recOrAbsent at h ⊢
  rw [Backend.get_set]
  by_cases ht : t = key
  · simp [ht]
  · simp only [ht, if_false]
    exact h

lemma appendFold_flag (failing : String → Bool) (pk : String) (e : Nat) (l : List String) :
    ∀ (st : Backend) (b : Bool), (∀ t ∈ l, recOrAbsent st t = true) →
      (l.foldl (appendStep failing pk e) (st, b)).2 = (b || l.any failing) := by
  induction l with
  | nil => intro st b _; simp
  | cons a l ih =>
    intro st b hrec
    by_cases hfa : failing a
    · simp only [List.foldl_cons, appendStep, append_value_fail failing st a pk e hfa]
      rw [ih st true (fun t ht => hrec t (List.mem_cons_of_mem a ht))]
      simp [List.any_cons, hfa]
    · have hfa' : failing a = false := by simpa using hfa
      simp only [List.foldl_cons, appendStep,
        append_value_ok failing st a pk e (hrec a (List.mem_cons_self a l)) hfa']
      rw [ih _ b (fun t ht =>
        recOrAbsent_set_record st a t _ e (hrec t (List.mem_cons_of_mem a ht)))]
      simp [List.any_cons, hfa']

lemma appendFold_get_mem (failing : String → Bool) (pk : String) (e : Nat) (l : List String) :
    ∀ (st : Backend) (b : Bool) (t : String), l.Nodup → t ∈ l → recOrAbsent st t = true →
      ((l.foldl (appendStep failing pk e) (st, b)).1).get t =
        if failing t then st.get t else some (.record (getRecord st t ++ [pk]), e) := by
  induction l with
  | nil => intro st b t _ ht _; simp at ht
  | cons a l ih =>
    intro st b t hnd ht hrec
    have hndl : l.Nodup := (List.nodup_cons.mp hnd).2
    have hanl : a ∉ l := (List.nodup_cons.mp hnd).1
    rcases List.mem_cons.mp ht with hta | htl
    · subst hta
      by_cases hft : failing t
      · simp only [List.foldl_cons, appendStep, append_value_fail failing st t pk e hft]
        rw [appendFold_get_notMem failing pk e l st true t hanl, if_pos hft]
      · have hft' : failing t = false := by simpa using hft
        simp only [List.foldl_cons, appendStep, append_value_ok failing st t pk e hrec hft']
        rw [appendFold_get_notMem failing pk e l _ b t hanl, if_neg hft, Backend.get_set]
        simp
    · have hta : t ≠ a := fun h => hanl (h ▸ htl)
      rcases hav : TagProvider._append_value failing st a pk e with _ | st'
      · simp only [List.foldl_cons, appendStep, hav]
        exact ih st true t hndl htl hrec
      · simp only [List.foldl_cons, appendStep, hav]
        have hget : st'.get t = st.get t := append_value_get_ne failing st a pk e t hta st' hav
        have hrec' : recOrAbsent st' t = true := by
          unfold recOrAbsent at hrec ⊢
          rw [hget]
          exact hrec
        rw [ih st' b t hndl htl hrec', hget]
        have hgr : getRecord st' t = getRecord st t := by
          unfold getRecord
          rw [hget]
        rw [hgr]

lemma appendFold_getRecord_grow (failing : String → Bool) (pk : String) (e : Nat)
    (l : List String) :
    ∀ (st : Backend) (b : Bool) (t : String),
      ∃ tail, getRecord ((l.foldl (appendStep failing pk e) (st, b)).1) t =
        getRecord st t ++ tail := by
  induction l with
  | nil => intro st b t; exact ⟨[], by simp⟩
  | cons a l ih =>
    intro st b t
    rcases hav : TagProvider._append_value failing st a pk e with _ | st'
    · simp only [List.foldl_cons, appendStep, hav]
      exact ih st true t
    · simp only [List.foldl_cons, appendStep, hav]
      rcases ih st' b t with ⟨tail, htail⟩
      by_cases hta : t = a
      · subst hta
        refine ⟨[pk] ++ tail, ?_⟩
        rw [htail, append_value_some_getRecord failing st t pk e st' hav, List.append_assoc]
      · have hget : st'.get t = st.get t := append_value_get_ne failing st a pk e t hta st' hav
        refine ⟨tail, ?_⟩
        rw [htail]
        unfold getRecord
        rw [hget]

/-- A concrete backend state: one tag record listing two cache keys, the two
entries themselves, and one unrelated entry. -/
def stC : Backend := fun k =>
  if k = "p:invalidation:file:1" then some (.record ["k1", "k2"], 60)
  else if k = "k1" then some (.blob "v1", 30)
  else if k = "k2" then some (.blob "v2", 30)
  else if k = "other" then some (.blob "v3", 30)
  else none

/-! ### Unfolding lemmas for invalidate -/

lemma invalidate_noop (tp : TagProvider) (ctx : Ctx) (failing : String → Bool)
    (st : Backend) (oid tag : String)
    (hg : tp.get_tag ctx none (some oid) = some tag) (hv : st.get tag = none) :
    tp.invalidate ctx failing st oid = .ok st := by
  simp only [TagProvider.invalidate, hg, hv]

lemma invalidate_ok (tp : TagProvider) (ctx : Ctx) (failing : String → Bool)
    (st : Backend) (oid tag : String) (ks : List String) (e : Nat)
    (hg : tp.get_tag ctx none (some oid) = some tag)
    (hv : st.get tag = some (.record ks, e))
    (hflag : ((ks ++ [tag]).foldl (clearStep failing) (st, false)).2 = false) :
    tp.invalidate ctx failing st oid =
      .ok ((ks ++ [tag]).foldl (clearStep failing) (st, false)).1 := by
  simp only [TagProvider.invalidate, hg, hv, hflag]
  rfl

lemma invalidate_error (tp : TagProvider) (ctx : Ctx) (failing : String → Bool)
    (st : Backend) (oid tag : String) (ks : List String) (e : Nat)
    (hg : tp.get_tag ctx none (some oid) = some tag)
    (hv : st.get tag = some (.record ks, e))
    (hflag : ((ks ++ [tag]).foldl (clearStep failing) (st, false)).2 = true) :
    tp.invalidate ctx failing st oid =
      .error ((ks ++ [tag]).foldl (clearStep failing) (st, false)).1 := by
  simp only [TagProvider.invalidate, hg, hv, hflag]
  rfl

/-! ### Claim theorems -/

/-- C1: calling invalidate when the backend holds no record under the tag of
the object id leaves the backend unchanged; when a record exists, after
invalidate returns every cache key listed in that record has been deleted
and the record itself has been deleted. -/
theorem C1_invalidate_deletes_record (tp : TagProvider) (ctx : Ctx) (st : Backend)
    (oid tag : String) (htag : tp.get_tag ctx none (some oid) = some tag) :
    (st.get tag = none → tp.invalidate ctx noFail st oid = .ok st) ∧
    (∀ ks e, st.get tag = some (.record ks, e) →
      isError (tp.invalidate ctx noFail st oid) = false ∧
      (∀ k ∈ ks, (stateOf (tp.invalidate ctx noFail st oid)).get k = none) ∧
      (stateOf (tp.invalidate ctx noFail st oid)).get tag = none) := by
  constructor
  · intro habs
    exact invalidate_noop tp ctx noFail st oid tag htag habs
  · intro ks e hrec
    have hflag : ((ks ++ [tag]).foldl (clearStep noFail) (st, false)).2 = false := by
      rw [clearFold_flag]
      simp [noFail]
    have hinv := invalidate_ok tp ctx noFail st oid tag ks e htag hrec hflag
    refine ⟨by rw [hinv]; rfl, ?_, ?_⟩
    · intro k hk
      rw [hinv]
      show ((ks ++ [tag]).foldl (clearStep noFail) (st, false)).1.get k = none
      rw [clearFold_get]
      simp [List.mem_append, hk, noFail]
    · rw [hinv]
      show ((ks ++ [tag]).foldl (clearStep noFail) (st, false)).1.get tag = none
      rw [clearFold_get]
      simp [List.mem_append, noFail]

theorem C1_witness :
    tpFile.get_tag ctxP none (some "1") = some "p:invalidation:file:1" ∧
    (isError (tpFile.invalidate ctxP noFail stC "1") = false ∧
      (∀ k ∈ ["k1", "k2"], (stateOf (tpFile.invalidate ctxP noFail stC "1")).get k = none) ∧
      (stateOf (tpFile.invalidate ctxP noFail stC "1")).get "p:invalidation:file:1" = none) :=
  ⟨by decide,
    (C1_invalidate_deletes_record tpFile ctxP stC "1" "p:invalidation:file:1" (by decide)).2
      ["k1", "k2"] 60 (by decide)⟩

/-- C2: invalidate only touches the keys registered under the tag of the
invalidated object id plus the tag itself; every other backend entry is
unchanged and would therefore still be a cache hit afterwards. -/
theorem C2_invalidate_frame (tp : TagProvider) (ctx : Ctx) (st : Backend)
    (oid tag k : String)
    (htag : tp.get_tag ctx none (some oid) = some tag)
    (hrA : recOrAbsent st tag = true)
    (hk : k ∉ getRecord st tag) (hkt : k ≠ tag) :
    isError (tp.invalidate ctx noFail st oid) = false ∧
    (stateOf (tp.invalidate ctx noFail st oid)).get k = st.get k := by
  rcases hv : st.get tag with _ | ⟨p, e⟩
  · rw [invalidate_noop tp ctx noFail st oid tag htag hv]
    exact ⟨rfl, rfl⟩
  · rcases p with ks | d
    · have hks : getRecord st tag = ks := by simp [getRecord, hv]
      rw [hks] at hk
      have hflag : ((ks ++ [tag]).foldl (clearStep noFail) (st, false)).2 = false := by
        rw [clearFold_flag]
        simp [noFail]
      rw [invalidate_ok tp ctx noFail st oid tag ks e htag hv hflag]
      refine ⟨rfl, ?_⟩
      show ((ks ++ [tag]).foldl (clearStep noFail) (st, false)).1.get k = st.get k
      rw [clearFold_get]
      simp [List.mem_append, hk, hkt]
    · simp [recOrAbsent, hv] at hrA

theorem C2_witness :
    isError (tpFile.invalidate ctxP noFail stC "1") = false ∧
    (stateOf (tpFile.invalidate ctxP noFail stC "1")).get "other" = stC.get "other" :=
  C2_invalidate_frame tpFile ctxP stC "1" "p:invalidation:file:1" "other"
    (by decide) (by decide) (by decide) (by decide)

/-- C9: invalidation is idempotent under sequential execution: running
invalidate twice in a row gives exactly the result of running it once — the
first run deletes the record under the tag, so the second run takes the
absent-record no-op branch (and if the first run raised, the second never
runs). This holds for every backend state, object id and failure pattern. -/
theorem C9_invalidate_idempotent (tp : TagProvider) (ctx : Ctx) (failing : String → Bool)
    (st : Backend) (oid : String) :
    (tp.invalidate ctx failing st oid).bind (fun st1 => tp.invalidate ctx failing st1 oid) =
      tp.invalidate ctx failing st oid := by
  rcases hg : tp.get_tag ctx none (some oid) with _ | tag
  · have h1 : tp.invalidate ctx failing st oid = .error st := by
      simp only [TagProvider.invalidate, hg]
    rw [h1]
    rfl
  · rcases hv : st.get tag with _ | ⟨p, e⟩
    · rw [invalidate_noop tp ctx failing st oid tag hg hv]
      show tp.invalidate ctx failing st oid = _
      rw [invalidate_noop tp ctx failing st oid tag hg hv]
    · rcases p with ks | d
      · by_cases hflag : ((ks ++ [tag]).foldl (clearStep failing) (st, false)).2
        · rw [invalidate_error tp ctx failing st oid tag ks e hg hv hflag]
          rfl
        · have hflag2 : ((ks ++ [tag]).foldl (clearStep failing) (st, false)).2 = false := by
            simpa using hflag
          have hinv := invalidate_ok tp ctx failing st oid tag ks e hg hv hflag2
          have hany : (ks ++ [tag]).any failing = false := by
            have h := clearFold_flag failing (ks ++ [tag]) st false
            rw [hflag2] at h
            simpa using h.symm
          have hftag : failing tag = false := by
            by_contra hf
            have hf2 : failing tag = true := by simpa using hf
            have : (ks ++ [tag]).any failing = true :=
              List.any_eq_true.mpr ⟨tag, by simp, hf2⟩
            simp [this] at hany
          have hgone : ((ks ++ [tag]).foldl (clearStep failing) (st, false)).1.get tag = none := by
            rw [clearFold_get]
            simp [List.mem_append, hftag]
          rw [hinv]
          show tp.invalidate ctx failing
            ((ks ++ [tag]).foldl (clearStep failing) (st, false)).1 oid = _
          rw [invalidate_noop tp ctx failing _ oid tag hg hgone]
      · have h1 : tp.invalidate ctx failing st oid = .error st := by
          simp only [TagProvider.invalidate, hg, hv]
        rw [h1]
        rfl

/-- C3: a provide call that runs without backend failure appends the parent
key at the end of the record stored under each produced item tag (the
previously stored record, or the empty list when the tag was absent), with
no deduplication; the record is written back with the effective TTL. The
produced tags are assumed pairwise distinct (one item per object id, as in
every source usage) and tag keys hold records or nothing. -/
theorem C3_provide_appends_parent_key (tp : TagProvider) (ctx : Ctx) (st : Backend)
    (data : List Item) (pk : String) (expire : Option Nat)
    (ip : Option ItemsProvider) (margs : Option MethodArgs) (mkw : Option MethodKwargs)
    (tags : List String)
    (htags : collectTags tp ctx ((ip.getD TagProvider.default_items_provider) data margs mkw) =
      some tags)
    (hnd : tags.Nodup)
    (hrec : ∀ t ∈ tags, recOrAbsent st t = true) :
    isError (tp.provide ctx noFail st data pk expire ip margs mkw) = false ∧
    ∀ t ∈ tags,
      (stateOf (tp.provide ctx noFail st data pk expire ip margs mkw)).get t =
        some (.record (getRecord st t ++ [pk]), effectiveExpire expire ctx) := by
  have hflag :
      (tags.foldl (appendStep noFail pk (effectiveExpire expire ctx)) (st, false)).2 = false := by
    rw [appendFold_flag noFail pk _ tags st false hrec]
    simp [noFail]
  have hp : tp.provide ctx noFail st data pk expire ip margs mkw =
      .ok (tags.foldl (appendStep noFail pk (effectiveExpire expire ctx)) (st, false)).1 := by
    simp only [TagProvider.provide, htags, hflag]
    rfl
  refine ⟨by rw [hp]; rfl, ?_⟩
  intro t ht
  rw [hp]
  show (tags.foldl (appendStep noFail pk (effectiveExpire expire ctx)) (st, false)).1.get t = _
  rw [appendFold_get_mem noFail pk _ tags st false t hnd ht (hrec t ht)]
  simp [noFail]

theorem C3_witness :
    collectTags tpFile ctxP (((none : Option ItemsProvider).getD
        TagProvider.default_items_provider) [Item.dict (some "1"), Item.dict (some "2")]
        none none) =
      some ["p:invalidation:file:1", "p:invalidation:file:2"] ∧
    (isError (tpFile.provide ctxP noFail stC [Item.dict (some "1"), Item.dict (some "2")]
        "pk" none none none none) = false ∧
      ∀ t ∈ ["p:invalidation:file:1", "p:invalidation:file:2"],
        (stateOf (tpFile.provide ctxP noFail stC [Item.dict (some "1"), Item.dict (some "2")]
            "pk" none none none none)).get t =
          some (.record (getRecord stC t ++ ["pk"]), effectiveExpire none ctxP)) :=
  ⟨by decide,
    C3_provide_appends_parent_key tpFile ctxP stC [Item.dict (some "1"), Item.dict (some "2")]
      "pk" none none none none ["p:invalidation:file:1", "p:invalidation:file:2"]
      (by decide) (by decide) (by decide)⟩

/-- C5 counterexample: with the index default TTL 60, a provide call with
TTL 5 stores the record with TTL 5 — not with max 5 60 = 60 as the claim
states. -/
theorem C5_counterexample :
    okGet (tpFile.provide ctxP noFail emptyB [Item.dict (some "1")] "pk" (some 5) none none none)
      "p:invalidation:file:1" = some (some (.record ["pk"], 5)) ∧
    max 5 ctxP.defaultExpire = 60 ∧ (5 : Nat) ≠ 60 := by decide

/-- C5 amended: the record is written back with TTL `expire or default`:
the TTL passed to the provide call when that is present and nonzero, and the
index default otherwise — never the maximum of the two, so a nonzero TTL
smaller than the default is stored as passed. -/
theorem C5_amended_expire (tp : TagProvider) (ctx : Ctx) (st : Backend)
    (data : List Item) (pk : String) (expire : Option Nat)
    (ip : Option ItemsProvider) (margs : Option MethodArgs) (mkw : Option MethodKwargs)
    (tags : List String)
    (htags : collectTags tp ctx ((ip.getD TagProvider.default_items_provider) data margs mkw) =
      some tags)
    (hnd : tags.Nodup)
    (hrec : ∀ t ∈ tags, recOrAbsent st t = true) :
    (∀ t ∈ tags,
      (stateOf (tp.provide ctx noFail st data pk expire ip margs mkw)).get t =
        some (.record (getRecord st t ++ [pk]), effectiveExpire expire ctx)) ∧
    (∀ e : Nat, e ≠ 0 → effectiveExpire (some e) ctx = e) := by
  have hflag :
      (tags.foldl (appendStep noFail pk (effectiveExpire expire ctx)) (st, false)).2 = false := by
    rw [appendFold_flag noFail pk _ tags st false hrec]
    simp [noFail]
  have hp : tp.provide ctx noFail st data pk expire ip margs mkw =
      .ok (tags.foldl (appendStep noFail pk (effectiveExpire expire ctx)) (st, false)).1 := by
    simp only [TagProvider.provide, htags, hflag]
    rfl
  constructor
  · intro t ht
    rw [hp]
    show (tags.foldl (appendStep noFail pk (effectiveExpire expire ctx)) (st, false)).1.get t = _
    rw [appendFold_get_mem noFail pk _ tags st false t hnd ht (hrec t ht)]
    simp [noFail]
  · intro e he
    simp [effectiveExpire, he]

theorem C5_witness :
    ((∀ t ∈ ["p:invalidation:file:3"],
      (stateOf (tpFile.provide ctxP noFail emptyB [Item.dict (some "3")] "pk" (some 5)
          none none none)).get t =
        some (.record (getRecord emptyB t ++ ["pk"]), effectiveExpire (some 5) ctxP)) ∧
    (∀ e : Nat, e ≠ 0 → effectiveExpire (some e) ctxP = e)) ∧
    effectiveExpire (some 5) ctxP = 5 :=
  ⟨C5_amended_expire tpFile ctxP emptyB [Item.dict (some "3")] "pk" (some 5) none none none
      ["p:invalidation:file:3"] (by decide) (by decide) (by decide),
    by decide⟩

/-- C4: per-step append-only invariant of the tag index: one provide or
invalidate step either removes a record wholesale (the key maps to nothing
afterwards) or extends it at the end — it never trims a record partially, so
every key registered since the record was last cleared stays enumerable
from it. Holds for every failure pattern. -/
theorem C4_append_only_step (tp : TagProvider) (ctx : Ctx) (failing : String → Bool)
    (st : Backend) (op : Op) (t : String) :
    (stateOf (tp.step ctx failing st op)).get t = none ∨
    ∃ tail, getRecord (stateOf (tp.step ctx failing st op)) t = getRecord st t ++ tail := by
  cases op with
  | provideOp data pk expire ip margs mkw =>
    simp only [TagProvider.step]
    right
    rcases hm : collectTags tp ctx
        ((ip.getD TagProvider.default_items_provider) data margs mkw) with _ | tags
    · have hp : tp.provide ctx failing st data pk expire ip margs mkw = .error st := by
        simp only [TagProvider.provide, hm]
      rw [hp]
      exact ⟨[], by simp [stateOf]⟩
    · have hstate : stateOf (tp.provide ctx failing st data pk expire ip margs mkw) =
          (tags.foldl (appendStep failing pk (effectiveExpire expire ctx)) (st, false)).1 := by
        simp only [TagProvider.provide, hm]
        by_cases hflag :
            (tags.foldl (appendStep failing pk (effectiveExpire expire ctx)) (st, false)).2 <;>
          simp [hflag, stateOf]
      rw [hstate]
      exact appendFold_getRecord_grow failing pk (effectiveExpire expire ctx) tags st false t
  | invalidateOp oid =>
    simp only [TagProvider.step]
    rcases hg : tp.get_tag ctx none (some oid) with _ | tag
    · have hp : tp.invalidate ctx failing st oid = .error st := by
        simp only [TagProvider.invalidate, hg]
      rw [hp]
      exact Or.inr ⟨[], by simp [stateOf]⟩
    · rcases hv : st.get tag with _ | ⟨p, e⟩
      · rw [invalidate_noop tp ctx failing st oid tag hg hv]
        exact Or.inr ⟨[], by simp [stateOf]⟩
      · rcases p with ks | d
        · have hstate : stateOf (tp.invalidate ctx failing st oid) =
              ((ks ++ [tag]).foldl (clearStep failing) (st, false)).1 := by
            by_cases hflag : ((ks ++ [tag]).foldl (clearStep failing) (st, false)).2
            · rw [invalidate_error tp ctx failing st oid tag ks e hg hv hflag]
              rfl
            · rw [invalidate_ok tp ctx failing st oid tag ks e hg hv (by simpa using hflag)]
              rfl
          by_cases hmem : t ∈ ks ++ [tag] ∧ failing t = false
          · left
            rw [hstate]
            show ((ks ++ [tag]).foldl (clearStep failing) (st, false)).1.get t = none
            rw [clearFold_get, if_pos hmem]
          · right
            have hget : ((ks ++ [tag]).foldl (clearStep failing) (st, false)).1.get t =
                st.get t := by
              rw [clearFold_get, if_neg hmem]
            refine ⟨[], ?_⟩
            rw [hstate]
            unfold getRecord
            rw [hget]
            simp
        · have hp : tp.invalidate ctx failing st oid = .error st := by
            simp only [TagProvider.invalidate, hg, hv]
          rw [hp]
          exact Or.inr ⟨[], by simp [stateOf]⟩

/-! ### Claims about the tag layout (C6) -/

/-- Number of colon separators in a string. -/
def colonCount (s : String) : Nat := s.data.count ':'

lemma colonCount_append (a b : String) :
    colonCount (a ++ b) = colonCount a + colonCount b := by
  unfold colonCount
  rw [String.data_append, List.count_append]

/-- Modelled from the spec (sections 4.1 and 6): value-entry keys produced
by the KeyBuilder (outside the given sources) have the layout
`namespace:operationIdentity:digest`. -/
def valueKey (ns opId digest : String) : String := ns ++ ":" ++ opId ++ ":" ++ digest

/-- In the source, the tag depends only on the global prefix, the object
type of the provider and the object id: the namespace of the cached
operation is not an input of `get_tag` at all. This wrapper takes the
namespace as an extra argument to make that explicit for C6. -/
def tagForNamespace (tp : TagProvider) (ctx : Ctx) (ns : String) (object_id : String) :
    Option String :=
  tp.get_tag ctx none (some object_id)

/-- C6 counterexample: the tag is not derived from the namespace — two
distinct namespaces give the same tag, all other inputs equal, because the
namespace is not an input of the tag computation. -/
theorem C6_counterexample :
    tagForNamespace tpFile ctxP "nsA" "1" = tagForNamespace tpFile ctxP "nsB" "1" ∧
    "nsA" ≠ "nsB" := by decide

/-- C6 amended: the tag is derived from the prefix, the object type and the
object id only (not from the namespace), with the reserved layout
`prefix:invalidation:objectType:objectId`; when the individual components
contain no colon, a tag key (three colons) can never equal a value-entry key
`namespace:operationIdentity:digest` (two colons). -/
theorem C6_amended_tag_layout (tp : TagProvider) (ctx : Ctx) (oid ns opId digest : String)
    (hoid : oid ≠ "")
    (h1 : colonCount ctx.pfx = 0) (h2 : colonCount tp.object_type = 0)
    (h3 : colonCount oid = 0) (h4 : colonCount ns = 0) (h5 : colonCount opId = 0)
    (h6 : colonCount digest = 0) :
    tp.get_tag ctx none (some oid) =
      some (ctx.pfx ++ ":invalidation:" ++ tp.object_type ++ ":" ++ oid) ∧
    ctx.pfx ++ ":invalidation:" ++ tp.object_type ++ ":" ++ oid ≠ valueKey ns opId digest := by
  constructor
  · simp [TagProvider.get_tag, hoid]
  · intro heq
    have hc := congrArg colonCount heq
    have hi : colonCount ":invalidation:" = 2 := by decide
    have hcol : colonCount ":" = 1 := by decide
    simp only [valueKey, colonCount_append, h1, h2, h3, h4, h5, h6, hi, hcol] at hc
    omega

theorem C6_witness :
    tpFile.get_tag ctxP none (some "1") =
      some (ctxP.pfx ++ ":invalidation:" ++ tpFile.object_type ++ ":" ++ "1") ∧
    ctxP.pfx ++ ":invalidation:" ++ tpFile.object_type ++ ":" ++ "1" ≠
      valueKey "test" "get_files" "abc123" :=
  C6_amended_tag_layout tpFile ctxP "1" "test" "get_files" "abc123"
    (by decide) (by decide) (by decide) (by decide) (by decide) (by decide) (by decide)

/-! ### Claims about batch failures (C7) -/

/-- A failure pattern where only the backend operation on `k1` fails. -/
def failK1 : String → Bool := fun k => k == "k1"

/-- A failure pattern where only the operation on the tag of file 1 fails. -/
def failTag1 : String → Bool := fun k => k == "p:invalidation:file:1"

/-- C7 counterexample: with a backend whose delete of `k1` fails, invalidate
raises (the gathered batch propagates the failure) instead of returning
normally as the claim states; the non-failing delete of `k2` is still
applied (no rollback) and the failing key is untouched. -/
theorem C7_counterexample :
    isError (tpFile.invalidate ctxP failK1 stC "1") = true ∧
    (stateOf (tpFile.invalidate ctxP failK1 stC "1")).get "k2" = none ∧
    (stateOf (tpFile.invalidate ctxP failK1 stC "1")).get "k1" = stC.get "k1" := by decide

/-- C7 amended: when one or more backend operations of a fan-out batch fail,
the batch is not rolled back — every non-failing delete (for invalidate) or
append (for provide) stays applied — but the failure does propagate: the
triggering provide or invalidate call raises instead of returning. -/
theorem C7_amended_no_rollback_but_raises :
    (∀ (tp : TagProvider) (ctx : Ctx) (failing : String → Bool) (st : Backend)
        (oid tag : String) (ks : List String) (e : Nat),
      tp.get_tag ctx none (some oid) = some tag →
      st.get tag = some (.record ks, e) →
      (ks ++ [tag]).any failing = true →
      isError (tp.invalidate ctx failing st oid) = true ∧
      ∀ k, (stateOf (tp.invalidate ctx failing st oid)).get k =
        if k ∈ ks ++ [tag] ∧ failing k = false then none else st.get k) ∧
    (∀ (tp : TagProvider) (ctx : Ctx) (failing : String → Bool) (st : Backend)
        (data : List Item) (pk : String) (expire : Option Nat) (ip : Option ItemsProvider)
        (margs : Option MethodArgs) (mkw : Option MethodKwargs) (tags : List String),
      collectTags tp ctx ((ip.getD TagProvider.default_items_provider) data margs mkw) =
        some tags →
      tags.Nodup → (∀ t ∈ tags, recOrAbsent st t = true) →
      tags.any failing = true →
      isError (tp.provide ctx failing st data pk expire ip margs mkw) = true ∧
      ∀ t ∈ tags, failing t = false →
        (stateOf (tp.provide ctx failing st data pk expire ip margs mkw)).get t =
          some (.record (getRecord st t ++ [pk]), effectiveExpire expire ctx)) := by
  constructor
  · intro tp ctx failing st oid tag ks e hg hv hfail
    have hflag : ((ks ++ [tag]).foldl (clearStep failing) (st, false)).2 = true := by
      rw [clearFold_flag]
      simp [hfail]
    have hinv := invalidate_error tp ctx failing st oid tag ks e hg hv hflag
    refine ⟨by rw [hinv]; rfl, ?_⟩
    intro k
    rw [hinv]
    show ((ks ++ [tag]).foldl (clearStep failing) (st, false)).1.get k = _
    rw [clearFold_get]
  · intro tp ctx failing st data pk expire ip margs mkw tags htags hnd hrec hfail
    have hflag :
        (tags.foldl (appendStep failing pk (effectiveExpire expire ctx)) (st, false)).2 = true := by
      rw [appendFold_flag failing pk _ tags st false hrec]
      simp [hfail]
    have hp : tp.provide ctx failing st data pk expire ip margs mkw =
        .error (tags.foldl (appendStep failing pk (effectiveExpire expire ctx)) (st, false)).1 := by
      simp only [TagProvider.provide, htags, hflag]
      rfl
    refine ⟨by rw [hp]; rfl, ?_⟩
    intro t ht hft
    rw [hp]
    show (tags.foldl (appendStep failing pk (effectiveExpire expire ctx)) (st, false)).1.get t = _
    rw [appendFold_get_mem failing pk _ tags st false t hnd ht (hrec t ht), if_neg]
    simp [hft]

theorem C7_witness :
    (isError (tpFile.invalidate ctxP failK1 stC "1") = true ∧
      ∀ k, (stateOf (tpFile.invalidate ctxP failK1 stC "1")).get k =
        if k ∈ ["k1", "k2"] ++ ["p:invalidation:file:1"] ∧ failK1 k = false then none
        else stC.get k) ∧
    (isError (tpFile.provide ctxP failTag1 stC [Item.dict (some "1"), Item.dict (some "2")]
        "pk" none none none none) = true ∧
      ∀ t ∈ ["p:invalidation:file:1", "p:invalidation:file:2"], failTag1 t = false →
        (stateOf (tpFile.provide ctxP failTag1 stC [Item.dict (some "1"), Item.dict (some "2")]
            "pk" none none none none)).get t =
          some (.record (getRecord stC t ++ ["pk"]), effectiveExpire none ctxP)) :=
  ⟨C7_amended_no_rollback_but_raises.1 tpFile ctxP failK1 stC "1" "p:invalidation:file:1"
      ["k1", "k2"] 60 (by decide) (by decide) (by decide),
    C7_amended_no_rollback_but_raises.2 tpFile ctxP failTag1 stC
      [Item.dict (some "1"), Item.dict (some "2")] "pk" none none none none
      ["p:invalidation:file:1", "p:invalidation:file:2"]
      (by decide) (by decide) (by decide) (by decide)⟩

/-! ### Claims about the default providers (C8, C10) -/

/-- C8 counterexample: for the dict item whose id renders to the empty
string, get_tag from the item returns a tag, while get_tag from the rendered
object id takes the falsy branch, falls back to the provider applied to an
absent item, and raises: the two calls disagree on that item. -/
theorem C8_counterexample :
    tpFile.get_tag ctxP (some (Item.dict (some ""))) none = some "p:invalidation:file:" ∧
    tpFile.get_tag ctxP none (some "") = none ∧
    tpFile.get_tag ctxP (some (Item.dict (some ""))) none ≠
      tpFile.get_tag ctxP none (some "") := by decide

/-- C8 amended: for every provider using the default object id provider and
every dict item whose id renders to a nonempty string, the tag computed from
the item equals the tag computed from the rendered object id — so a key
registered by provide for that item is found by a later invalidate with that
object id. -/
theorem C8_amended_registration_matches_invalidation (tp : TagProvider) (ctx : Ctx)
    (s : String) (hdef : tp.object_id_provider = none) (hs : s ≠ "") :
    tp.get_tag ctx (some (Item.dict (some s))) none = tp.get_tag ctx none (some s) := by
  simp [TagProvider.get_tag, TagProvider.objectIdProvider, hdef,
    TagProvider.default_object_id_provider, hs]

theorem C8_witness :
    tpFile.get_tag ctxP (some (Item.dict (some "1"))) none =
      tpFile.get_tag ctxP none (some "1") :=
  C8_amended_registration_matches_invalidation tpFile ctxP "1" rfl (by decide)

lemma collectTags_eq_none (tp : TagProvider) (ctx : Ctx) (l : List Item) (it : Item)
    (ha : it ∈ l) (hfa : tp.get_tag ctx (some it) none = none) :
    collectTags tp ctx l = none := by
  induction l with
  | nil => simp at ha
  | cons x l ih =>
    rcases List.mem_cons.mp ha with h | h
    · subst h
      simp [collectTags, hfa]
    · rcases hfx : tp.get_tag ctx (some x) none with _ | y
      · simp [collectTags, hfx]
      · simp [collectTags, hfx, ih h]

/-- C10: with the default items provider and the default object id provider,
provide completes without raising only if every element of data is a dict
carrying an id field; when some element is not (a non-dict element — for
example a key of a dict passed as data — or a dict without id), the call
raises with the backend unchanged, before any tag has been registered,
because get_tag is evaluated eagerly for all items while the task list is
built. -/
theorem C10_default_provider_domain (tp : TagProvider) (ctx : Ctx) (failing : String → Bool)
    (st : Backend) (data : List Item) (pk : String) (expire : Option Nat)
    (margs : Option MethodArgs) (mkw : Option MethodKwargs)
    (hdef : tp.object_id_provider = none) :
    ((∃ st', tp.provide ctx failing st data pk expire none margs mkw = .ok st') →
      ∀ it ∈ data, isGoodItem it = true) ∧
    ((∃ it ∈ data, isGoodItem it = false) →
      tp.provide ctx failing st data pk expire none margs mkw = .error st) := by
  have hbad : ∀ it : Item, isGoodItem it = false →
      tp.get_tag ctx (some it) none = none := by
    intro it hit
    cases it with
    | dict idf =>
      cases idf with
      | some s => simp [isGoodItem] at hit
      | none =>
        simp [TagProvider.get_tag, TagProvider.objectIdProvider, hdef,
          TagProvider.default_object_id_provider]
    | other =>
      simp [TagProvider.get_tag, TagProvider.objectIdProvider, hdef,
        TagProvider.default_object_id_provider]
  have hitems : ((none : Option ItemsProvider).getD TagProvider.default_items_provider)
      data margs mkw = data := rfl
  constructor
  · rintro ⟨st', hok⟩ it hin
    by_contra hfalse
    have hbaditem : isGoodItem it = false := by simpa using hfalse
    have hnone : collectTags tp ctx data = none :=
      collectTags_eq_none tp ctx data it hin (hbad it hbaditem)
    have herr : tp.provide ctx failing st data pk expire none margs mkw = .error st := by
      simp only [TagProvider.provide, hitems, hnone]
    rw [herr] at hok
    simp at hok
  · rintro ⟨it, hin, hbaditem⟩
    have hnone : collectTags tp ctx data = none :=
      collectTags_eq_none tp ctx data it hin (hbad it hbaditem)
    simp only [TagProvider.provide, hitems, hnone]

theorem C10_witness :
    (∀ it ∈ [Item.dict (some "1")], isGoodItem it = true) ∧
    tpFile.provide ctxP noFail stC [Item.dict (some "1"), Item.other] "pk" none
      none none none = .error stC :=
  ⟨(C10_default_provider_domain tpFile ctxP noFail stC [Item.dict (some "1")] "pk" none
        none none rfl).1 ⟨_, rfl⟩,
    (C10_default_provider_domain tpFile ctxP noFail stC [Item.dict (some "1"), Item.other]
        "pk" none none none rfl).2 ⟨Item.other, by decide, rfl⟩⟩
